import Mathlib

/-!
Verification development for the Plasmodium drug-prediction application
(`main.py`).  The application is a single-page web app with four task
branches dispatched in `main()`:

1. "Compute Lipinski's Descriptors"  — parse the SMILES with
   `Chem.MolFromSmiles`, compute four descriptors, display a table;
2. "Predict the Compound's Activity" — load `lipinsky_model.pkl`,
   compute the descriptor row, predict, and display "Active" when the
   numeric code is 1 and "Inactive" otherwise;
3. "Predict the Compound's pIC50"    — write `molecule.smi` with
   `generate_csv_file`, call `bash ./padel.sh` as a subprocess (the exit
   code is discarded), read `descriptors_output.csv`, drop the "Name"
   column, load `model.pkl`, predict, and display the first prediction
   formatted with `format(v, ".2f")`;
4. "Retrieve interacting proteins"   — query the PDB search service and
   collect the first 10 identifiers in observed order.

Only `ValueError` is caught (`except ValueError`); every other exception
escapes `main` uncaught.  The embedding below renders `main` as a pure
function of an environment (the external collaborators: the RDKit
parser and descriptor functions, the two pickled models, the state of
the external tool's output file, and the protein search results) that
returns the trace of side-effect events, the displayed output, and the
exception that escaped, if any.
-/

namespace Plasmodium

/-- Exact fraction `num / den`, used in place of Python floats.  The
representation is deliberately unnormalised and structural, so equality
of `Frac` values is bit-identity of the stored numerator/denominator. -/
structure Frac where
  num : ℤ
  den : ℕ
  deriving DecidableEq, Repr

/-- Embeds a natural-number count (e.g. a hydrogen-bond donor count)
as a `Frac`. -/
def Frac.ofNat (n : ℕ) : Frac := ⟨(n : ℤ), 1⟩

/-- Python exception classes that can arise in `main`:
`ValueError` (raised at `main.py:24` for an unparsable SMILES, the only
class the handler at `main.py:162` catches), `KeyError` (raised by
`data.drop(columns=['Name'])` at `main.py:145` when the column is
absent), `FileNotFoundError` (raised by `open`/`pd.read_csv` on a
missing file), and `IndexError` (raised by `y_pred[0]` on an empty
prediction array). -/
inductive ExcKind where
  | valueError
  | keyError
  | fileNotFoundError
  | indexError
  deriving DecidableEq, Repr

/-- Opaque handle for the in-memory molecule object produced by
`Chem.MolFromSmiles` (`main.py:22`). -/
abbrev Molecule := ℕ

/-- A parsed tabular file, as produced by `pd.read_csv` at
`main.py:144`: a header row naming the columns and the data rows. -/
structure Table where
  headers : List String
  rows : List (List Frac)
  deriving DecidableEq, Repr

/-- Side-effect events performed by a run of `main` (`main.py:106-163`),
in program order. -/
inductive Event where
  | parseAttempt (smiles : String)
  | descriptorComputed
  | modelLoad (file : String)
  | modelInference
  | fileWrite (name : String) (content : List Char)
  | subprocessCall (script : String)
  | networkQuery (q : String)
  deriving DecidableEq, Repr

/-- Output rendered into the results area: `st.text`, `st.table`,
`st.error`, `st.markdown`. -/
inductive Display where
  | text (s : String)
  | table (headers : List String) (rows : List (List Frac))
  | errorMsg (s : String)
  | markdown (s : String)
  deriving DecidableEq, Repr

/-- The four entries of the task selectbox (`main.py:95-100`). -/
inductive Task where
  | computeLipinski
  | predictActivity
  | predictPIC50
  | retrieveProteins
  deriving DecidableEq, Repr

/-- Result of one press of the Run button: the event trace, the
displayed output, and the exception that escaped `main` uncaught
(if any). -/
structure RunResult where
  events : List Event
  displays : List Display
  uncaught : Option ExcKind
  deriving DecidableEq, Repr

/-- The external collaborators of `main`, fixed for one run:
`molFromSmiles` is `Chem.MolFromSmiles` (`None` on an invalid SMILES);
`molWt`, `molLogP`, `numHDonors`, `numHAcceptors` are the RDKit
descriptor functions; `lipinskyModel` is the content of
`lipinsky_model.pkl` (`none` when the file is missing) whose `predict`
returns a numeric class code; `pic50Model` is the content of
`model.pkl` whose `predict` returns an array of regression values;
`padelExitCode` is the exit status of the `bash ./padel.sh` subprocess;
`descriptorsOutput` is the state of `descriptors_output.csv` after the
subprocess call (`none` when the file is absent); `searchResult` is the
sequence of identifiers yielded by `Query(...).search()`. -/
structure Env where
  molFromSmiles : String → Option Molecule
  molWt : Molecule → Frac
  molLogP : Molecule → Frac
  numHDonors : Molecule → ℕ
  numHAcceptors : Molecule → ℕ
  lipinskyModel : Option (List Frac → ℤ)
  pic50Model : Option (Table → List Frac)
  padelExitCode : ℤ
  descriptorsOutput : Option Table
  searchResult : List String

/-- The single-row descriptor vector built at `main.py:26-31`:
MW, LogP, NumHDonors, NumHAcceptors, in this fixed column order. -/
def lipinskiRow (env : Env) (mol : Molecule) : List Frac :=
  [env.molWt mol, env.molLogP mol,
   Frac.ofNat (env.numHDonors mol), Frac.ofNat (env.numHAcceptors mol)]

/-- Embedding of `calculate_lipinski_descriptors` (`main.py:11-33`):
parse the SMILES; on failure raise `ValueError("Invalid SMILES string")`,
otherwise return the single-row descriptor vector. -/
def calculate_lipinski_descriptors (env : Env) (smiles : String) :
    Except ExcKind (List Frac) :=
  match env.molFromSmiles smiles with
  | none => .error .valueError
  | some mol => .ok (lipinskiRow env mol)

/-- Lookup in the memoisation table of `@st.cache_data`, keyed by the
exact input string. -/
def cacheLookup (smiles : String) : List (String × List Frac) → Option (List Frac)
  | [] => none
  | (k, v) :: rest => if smiles = k then some v else cacheLookup smiles rest

/-- The memoisation applied by the `@st.cache_data` decorator at
`main.py:11`: results are cached keyed by the exact input string;
a raised exception is not cached. -/
def cachedLipinski (env : Env) (cache : List (String × List Frac))
    (smiles : String) :
    Except ExcKind (List Frac) × List (String × List Frac) :=
  match cacheLookup smiles cache with
  | some v => (.ok v, cache)
  | none =>
      match calculate_lipinski_descriptors env smiles with
      | .ok v => (.ok v, (smiles, v) :: cache)
      | .error e => (.error e, cache)

/-- A cache state is well-formed when every stored entry is a genuine
result of the underlying computation. -/
def CacheWF (env : Env) (cache : List (String × List Frac)) : Prop :=
  ∀ p ∈ cache, calculate_lipinski_descriptors env p.1 = .ok p.2

/-- Python's `csv` quoting predicate for the default dialect
(`QUOTE_MINIMAL`, delimiter `,`, quotechar `"`, lineterminator CRLF):
a field is quoted iff it contains the delimiter, the quote character,
or a line-terminator character.  A tab is none of these. -/
def needsQuoting (field : List Char) : Bool :=
  field.any fun c => c = ',' || c = '"' || c = '\r' || c = '\n'

/-- Doubling of embedded quote characters performed by `csv.writer`
when a field is quoted. -/
def escapeQuotes : List Char → List Char
  | [] => []
  | c :: cs =>
      if c = '"' then '"' :: '"' :: escapeQuotes cs
      else c :: escapeQuotes cs

/-- One field as written by `csv.writer` under `QUOTE_MINIMAL`. -/
def writeCsvField (field : List Char) : List Char :=
  if needsQuoting field then '"' :: (escapeQuotes field ++ ['"'])
  else field

/-- Embedding of `generate_csv_file` (`main.py:36-49`): the data is the
single one-element row `[[string1 + '\t' + string2]]`, written by
`csv.writer` with the default dialect, so the file content is that one
field (quoted only when `QUOTE_MINIMAL` requires it) followed by CRLF.
The result is the byte content of the written file as characters. -/
def generate_csv_file (string1 string2 : String) : List Char :=
  writeCsvField (string1.data ++ '\t' :: string2.data) ++ ['\r', '\n']

/-- Splits a character list at every occurrence of `c`; the separators
are not kept.  `splitOnChar c l` always has one more part than `l` has
occurrences of `c`. -/
def splitOnChar (c : Char) : List Char → List (List Char)
  | [] => [[]]
  | x :: xs =>
      if x = c then [] :: splitOnChar c xs
      else
        match splitOnChar c xs with
        | [] => [[x]]
        | y :: ys => (x :: y) :: ys

/-- Drops one carriage return at the end of a line, as tab-separated
readers do for CRLF-terminated files. -/
def stripTrailingCR (l : List Char) : List Char :=
  if l.getLast? = some '\r' then l.dropLast else l

/-- Reads a character buffer as a tab-separated file: the records are
the newline-terminated lines (the trailing empty part after the final
newline is not a record), each split into fields at tabs after
stripping the carriage return of a CRLF line ending. -/
def tsvRecords (content : List Char) : List (List (List Char)) :=
  ((splitOnChar '\n' content).dropLast).map
    fun line => splitOnChar '\t' (stripTrailingCR line)

/-- Rounds `q` to the nearest integer, ties to the even neighbour —
the rounding Python's `format(v, ".2f")` applies to the scaled value. -/
def roundHalfEven (q : Frac) : ℤ :=
  let d : ℤ := (q.den : ℤ)
  let f : ℤ := Int.fdiv q.num d
  let r : ℤ := q.num - f * d
  if 2 * r < d then f
  else if d < 2 * r then f + 1
  else if f % 2 = 0 then f else f + 1

/-- Embedding of `format(predicted_value, ".2f")` (`main.py:150`):
the value is rounded to exactly two decimal places (half to even) and
rendered with a sign, the integer part, a point, and two digits. -/
def formatFixed2 (q : Frac) : String :=
  let n : ℤ := roundHalfEven ⟨q.num * 100, q.den⟩
  let m : ℕ := n.natAbs
  (if n < 0 then "-" else "") ++ toString (m / 100) ++ "." ++
    (if m % 100 < 10 then "0" else "") ++ toString (m % 100)

/-- Embedding of `data.drop(columns=['Name'])` (`main.py:145`) in the
case where the column is present: the "Name" column is removed from the
header row and from every data row.  The `KeyError` case (column
absent) is handled at the call site in `main`. -/
def dropNameColumn (t : Table) : Table :=
  let i := t.headers.indexOf "Name"
  { headers := t.headers.eraseIdx i,
    rows := t.rows.map fun r => r.eraseIdx i }

/-- Embedding of the identifier-collection loop at `main.py:155-158`:
fold over the whole result stream, appending an identifier only while
fewer than 10 have been collected. -/
def collectIds (result : List String) : List String :=
  result.foldl (fun ids pdb_id => if ids.length < 10 then ids ++ [pdb_id] else ids) []

/-- The four renamed column headers assigned at `main.py:114-115`. -/
def lipinskiTableHeaders : List String :=
  ["Molecular Weight", "Octanol-Water Partition Coefficient (LogP)",
   "Number of Hydrogen Bond Donors", "Number of Hydrogen Bond Acceptors"]

/-- Embedding of one press of the Run button in `main`
(`main.py:106-163`).  Empty input is answered with a prompt before any
branch runs (`main.py:107-108`).  Inside the `try`, the selected branch
runs; a raised `ValueError` is caught at `main.py:162` and displayed
with `st.error`; any other exception escapes uncaught.  Event order
follows program order, in particular: the activity branch loads
`lipinsky_model.pkl` (`main.py:127`) before parsing the SMILES
(`main.py:128`); the pIC50 branch writes `molecule.smi` and calls the
subprocess unconditionally, discards the exit code (`main.py:142`),
reads `descriptors_output.csv`, drops the "Name" column, and only then
loads `model.pkl` and predicts. -/
def main (env : Env) (smiles_input : String) (task : Task) : RunResult :=
  if smiles_input = "" then
    { events := [], displays := [.text "Enter Canonical SMILES"], uncaught := none }
  else
    match task with
    | .computeLipinski =>
        match env.molFromSmiles smiles_input with
        | none =>
            { events := [.parseAttempt smiles_input],
              displays := [.errorMsg "Invalid SMILES string"],
              uncaught := none }
        | some mol =>
            { events := [.parseAttempt smiles_input, .descriptorComputed],
              displays := [.table lipinskiTableHeaders [lipinskiRow env mol]],
              uncaught := none }
    | .predictActivity =>
        match env.lipinskyModel with
        | none =>
            { events := [.modelLoad "lipinsky_model.pkl"],
              displays := [],
              uncaught := some .fileNotFoundError }
        | some model =>
            match env.molFromSmiles smiles_input with
            | none =>
                { events := [.modelLoad "lipinsky_model.pkl", .parseAttempt smiles_input],
                  displays := [.errorMsg "Invalid SMILES string"],
                  uncaught := none }
            | some mol =>
                { events := [.modelLoad "lipinsky_model.pkl", .parseAttempt smiles_input,
                             .descriptorComputed, .modelInference],
                  displays := [.text (if model (lipinskiRow env mol) = 1
                                      then "Active" else "Inactive")],
                  uncaught := none }
    | .predictPIC50 =>
        let content := generate_csv_file smiles_input "Compound_name"
        let pre : List Event :=
          [.fileWrite "molecule.smi" content, .subprocessCall "./padel.sh"]
        match env.descriptorsOutput with
        | none =>
            { events := pre, displays := [], uncaught := some .fileNotFoundError }
        | some data =>
            if "Name" ∈ data.headers then
              match env.pic50Model with
              | none =>
                  { events := pre ++ [.modelLoad "model.pkl"],
                    displays := [],
                    uncaught := some .fileNotFoundError }
              | some model =>
                  match model (dropNameColumn data) with
                  | [] =>
                      { events := pre ++ [.modelLoad "model.pkl", .modelInference],
                        displays := [],
                        uncaught := some .indexError }
                  | r :: _ =>
                      { events := pre ++ [.modelLoad "model.pkl", .modelInference],
                        displays := [.text ("The pIC50 of your compound is " ++ formatFixed2 r)],
                        uncaught := none }
            else
              { events := pre, displays := [], uncaught := some .keyError }
    | .retrieveProteins =>
        { events := [.networkQuery smiles_input],
          displays := [.markdown (String.intercalate ", " (collectIds env.searchResult))],
          uncaught := none }

/-- Modelled from the spec: the failure taxonomy of spec section 7.
The source raises plain Python exceptions and has no such enumeration;
the spec names the kinds `InvalidStructure`, `ExternalToolFailure`,
`FeatureParseFailure`, `ModelLoadFailure`. -/
inductive FailureKind where
  | invalidStructure
  | externalToolFailure
  | featureParseFailure
  | modelLoadFailure
  deriving DecidableEq, Repr

/-- Modelled from the spec: classification of a potency-branch abort
into the spec taxonomy, following the spec's words — "output file
missing/unreadable/malformed (wrong column count, unparsable values) →
FeatureParseFailure" and "artifact file missing/corrupt →
ModelLoadFailure".  A `KeyError` (missing "Name" column) is a malformed
output file; a `FileNotFoundError` is a model-load failure when it was
the model artifact being opened (a `modelLoad` event was reached) and a
missing output file otherwise. -/
def classifyPIC50Abort (r : RunResult) : Option FailureKind :=
  match r.uncaught with
  | some .keyError => some .featureParseFailure
  | some .fileNotFoundError =>
      if r.events.contains (Event.modelLoad "model.pkl")
      then some .modelLoadFailure
      else some .featureParseFailure
  | _ => none

/-- A concrete environment for evaluating the embedding: "CCO" is the
only parsable string, both model files are present, the external tool's
output file holds one row with a "Name" column, and the regression
model predicts the raw value 6.12345. -/
def envBase : Env where
  molFromSmiles := fun s => if s = "CCO" then some 1 else none
  molWt := fun _ => ⟨4607, 100⟩
  molLogP := fun _ => ⟨-14, 100⟩
  numHDonors := fun _ => 1
  numHAcceptors := fun _ => 1
  lipinskyModel := some fun _ => 1
  pic50Model := some fun _ => [⟨612345, 100000⟩]
  padelExitCode := 0
  descriptorsOutput := some ⟨["Name", "ALogP", "ALogp2"], [[⟨0, 1⟩, ⟨1, 1⟩, ⟨2, 1⟩]]⟩
  searchResult := ["1ABC", "2DEF", "3GHI"]

/-- `envBase` with an activity classifier that always returns `code`. -/
def envCode (code : ℤ) : Env := { envBase with lipinskyModel := some fun _ => code }

/-- `envBase` with a parser that rejects every string. -/
def envInvalid : Env := { envBase with molFromSmiles := fun _ => none }

/-- `envBase` with `descriptors_output.csv` absent. -/
def envNoOutput : Env := { envBase with descriptorsOutput := none }

/-- `envBase` with an output file that lacks the "Name" column. -/
def envNoName : Env :=
  { envBase with descriptorsOutput := some ⟨["ALogP", "ALogp2"], [[⟨1, 1⟩, ⟨2, 1⟩]]⟩ }

/-- `envBase` with a failing external tool (non-zero exit status). -/
def envToolFailed : Env := { envBase with padelExitCode := 1 }

/-- `envBase` with a given protein search stream. -/
def envStream (l : List String) : Env := { envBase with searchResult := l }

/-- A search stream of 15 identifiers containing duplicates among the
first 10. -/
def stream15 : List String :=
  ["A", "B", "A", "C", "D", "E", "F", "G", "H", "A", "K", "L", "M", "N", "O"]

theorem splitOnChar_of_not_mem {c : Char} {l : List Char} (h : ∀ x ∈ l, x ≠ c) :
    splitOnChar c l = [l] := by
  induction l with
  | nil => rfl
  | cons x xs ih =>
      have hx : x ≠ c := h x (List.mem_cons_self x xs)
      have ihh := ih fun y hy => h y (List.mem_cons_of_mem x hy)
      simp [splitOnChar, hx, ihh]

theorem splitOnChar_append {c : Char} {l₁ l₂ : List Char} (h : ∀ x ∈ l₁, x ≠ c) :
    splitOnChar c (l₁ ++ c :: l₂) = l₁ :: splitOnChar c l₂ := by
  induction l₁ with
  | nil => simp [splitOnChar]
  | cons x xs ih =>
      have hx : x ≠ c := h x (List.mem_cons_self x xs)
      have ihh := ih fun y hy => h y (List.mem_cons_of_mem x hy)
      simp [splitOnChar, hx, ihh]

theorem collect_foldl_eq :
    ∀ (l : List String) (acc : List String), acc.length ≤ 10 →
      l.foldl (fun ids p => if ids.length < 10 then ids ++ [p] else ids) acc
        = acc ++ l.take (10 - acc.length)
  | [], acc, _ => by simp
  | x :: xs, acc, hacc => by
      by_cases h : acc.length < 10
      · have h1 : (acc ++ [x]).length ≤ 10 := by
          simp only [List.length_append, List.length_singleton]
          omega
        have ih := collect_foldl_eq xs (acc ++ [x]) h1
        have hk : 10 - acc.length = (10 - (acc.length + 1)) + 1 := by omega
        simp only [List.foldl_cons, if_pos h, ih, List.length_append,
          List.length_singleton, hk, List.take_succ_cons, List.append_assoc,
          List.cons_append, List.nil_append]
      · have h10 : acc.length = 10 := by omega
        have ih := collect_foldl_eq xs acc hacc
        simp [List.foldl_cons, if_neg h, ih, h10]

theorem collectIds_eq_take (l : List String) : collectIds l = l.take 10 := by
  have h := collect_foldl_eq l [] (by simp)
  simpa [collectIds] using h

theorem cacheLookup_of_wf {env : Env} :
    ∀ {cache : List (String × List Frac)}, CacheWF env cache →
      ∀ {s : String} {v : List Frac}, cacheLookup s cache = some v →
        calculate_lipinski_descriptors env s = Except.ok v := by
  intro cache
  induction cache with
  | nil => intro _ s v hl; simp [cacheLookup] at hl
  | cons p rest ih =>
      intro hwf s v hl
      obtain ⟨k, w⟩ := p
      by_cases hk : s = k
      · rw [cacheLookup, if_pos hk] at hl
        cases hl
        rw [hk]
        exact hwf (k, v) (List.mem_cons_self _ _)
      · rw [cacheLookup, if_neg hk] at hl
        exact ih (fun q hq => hwf q (List.mem_cons_of_mem _ hq)) hl

/-- Claim C10: for the empty input string, pressing Run executes no
task branch at all — the event trace is empty (no parse attempt, no
model load, no file write, no subprocess, no network query) for every
task selection, a prompt is displayed instead, and no exception
arises. -/
theorem empty_input_runs_no_branch (env : Env) (task : Task) :
    (main env "" task).events = [] ∧
    (main env "" task).displays = [.text "Enter Canonical SMILES"] ∧
    (main env "" task).uncaught = none :=
  ⟨rfl, rfl, rfl⟩

/-- Claim C1: in the activity branch, the displayed label is "Active"
exactly when the classifier's numeric prediction code is 1, and
"Inactive" for every other code (0, out-of-range integers, negatives
alike). -/
theorem activity_label_mapping (env : Env) (s : String) (hs : s ≠ "")
    (model : List Frac → ℤ) (hm : env.lipinskyModel = some model)
    (mol : Molecule) (hp : env.molFromSmiles s = some mol) :
    ((main env s .predictActivity).displays = [.text "Active"] ↔
      model (lipinskiRow env mol) = 1) ∧
    (model (lipinskiRow env mol) ≠ 1 →
      (main env s .predictActivity).displays = [.text "Inactive"]) := by
  simp only [main, if_neg hs, hm, hp]
  constructor
  · constructor
    · intro h
      by_contra hne
      rw [if_neg hne] at h
      simp at h
    · intro h
      rw [if_pos h]
  · intro h
    rw [if_neg h]

theorem activity_label_mapping_witness :
    (main (envCode 1) "CCO" .predictActivity).displays = [.text "Active"] ∧
    (main (envCode 0) "CCO" .predictActivity).displays = [.text "Inactive"] ∧
    (main (envCode 7) "CCO" .predictActivity).displays = [.text "Inactive"] :=
  ⟨(activity_label_mapping (envCode 1) "CCO" (by decide) _ rfl 1 rfl).1.mpr rfl,
   (activity_label_mapping (envCode 0) "CCO" (by decide) _ rfl 1 rfl).2 (by decide),
   (activity_label_mapping (envCode 7) "CCO" (by decide) _ rfl 1 rfl).2 (by decide)⟩

/-- Claim C5: the protein branch collects exactly the first
min(10, n) identifiers of the search stream, in original order, with
duplicates among the first 10 passed through unchanged, and an empty
stream produces an empty display rather than an error. -/
theorem protein_retrieval_truncation (env : Env) (s : String) (hs : s ≠ "") :
    collectIds env.searchResult = env.searchResult.take 10 ∧
    (main env s .retrieveProteins).displays =
      [.markdown (String.intercalate ", " (env.searchResult.take 10))] ∧
    (main env s .retrieveProteins).uncaught = none := by
  have h := collectIds_eq_take env.searchResult
  refine ⟨h, ?_, ?_⟩
  · simp only [main, if_neg hs, h]
  · simp only [main, if_neg hs]

theorem protein_retrieval_truncation_witness :
    (main (envStream stream15) "CCO" .retrieveProteins).displays =
      [.markdown "A, B, A, C, D, E, F, G, H, A"] ∧
    (main (envStream ["X", "Y", "Z"]) "CCO" .retrieveProteins).displays =
      [.markdown "X, Y, Z"] ∧
    (main (envStream []) "CCO" .retrieveProteins).displays = [.markdown ""] ∧
    (main (envStream []) "CCO" .retrieveProteins).uncaught = none := by
  have h15 := protein_retrieval_truncation (envStream stream15) "CCO" (by decide)
  have h3 := protein_retrieval_truncation (envStream ["X", "Y", "Z"]) "CCO" (by decide)
  have h0 := protein_retrieval_truncation (envStream []) "CCO" (by decide)
  refine ⟨?_, ?_, ?_, h0.2.2⟩
  · rw [h15.2.1]; decide
  · rw [h3.2.1]; decide
  · rw [h0.2.1]; decide

/-- Claim C9: the Lipinski descriptor engine is deterministic — for a
valid molecular string, a (cached) call returns the pure descriptor
computation of the parsed molecule, and a second call with the
identical string returns a bit-identical result; no state other than
the memoisation cache is read, and a well-formed cache never changes
the value. -/
theorem lipinski_deterministic (env : Env) (cache : List (String × List Frac))
    (hwf : CacheWF env cache) (s : String) (mol : Molecule)
    (hp : env.molFromSmiles s = some mol) :
    (cachedLipinski env cache s).1 = Except.ok (lipinskiRow env mol) ∧
    (cachedLipinski env (cachedLipinski env cache s).2 s).1 =
      (cachedLipinski env cache s).1 := by
  have hcalc : calculate_lipinski_descriptors env s = Except.ok (lipinskiRow env mol) := by
    simp [calculate_lipinski_descriptors, hp]
  cases hcl : cacheLookup s cache with
  | none =>
      have h1 : cachedLipinski env cache s =
          (Except.ok (lipinskiRow env mol), (s, lipinskiRow env mol) :: cache) := by
        simp [cachedLipinski, hcl, hcalc]
      refine ⟨by rw [h1], ?_⟩
      rw [h1]
      simp [cachedLipinski, cacheLookup]
  | some v =>
      have hv : (Except.ok v : Except ExcKind (List Frac)) = Except.ok (lipinskiRow env mol) := by
        rw [← hcalc]
        exact (cacheLookup_of_wf hwf hcl).symm
      have h1 : cachedLipinski env cache s = (Except.ok v, cache) := by
        simp [cachedLipinski, hcl]
      refine ⟨by rw [h1]; exact hv, ?_⟩
      simp [h1]

theorem lipinski_deterministic_witness :
    (cachedLipinski envBase [] "CCO").1 = Except.ok (lipinskiRow envBase 1) ∧
    (cachedLipinski envBase (cachedLipinski envBase [] "CCO").2 "CCO").1 =
      (cachedLipinski envBase [] "CCO").1 :=
  lipinski_deterministic envBase [] (fun p hp => absurd hp (List.not_mem_nil p))
    "CCO" 1 rfl

/-- Claim C4: whenever the potency branch reaches a prediction, the
displayed line is the raw regression value formatted to exactly two
decimal places — the formatting is applied to the model's output
(never to its input or before prediction), for every raw value. -/
theorem pic50_rounded_after_prediction (env : Env) (s : String) (hs : s ≠ "")
    (tbl : Table) (hout : env.descriptorsOutput = some tbl)
    (hname : "Name" ∈ tbl.headers)
    (model : Table → List Frac) (hm : env.pic50Model = some model)
    (r : Frac) (rest : List Frac)
    (hpred : model (dropNameColumn tbl) = r :: rest) :
    (main env s .predictPIC50).displays =
      [.text ("The pIC50 of your compound is " ++ formatFixed2 r)] ∧
    (main env s .predictPIC50).uncaught = none := by
  constructor <;> simp [main, if_neg hs, hout, hname, hm, hpred]

theorem pic50_rounded_after_prediction_witness :
    (main envBase "CCO" .predictPIC50).displays =
      [.text "The pIC50 of your compound is 6.12"] := by
  have h := pic50_rounded_after_prediction envBase "CCO" (by decide) _ rfl
    (by decide) _ rfl ⟨612345, 100000⟩ [] rfl
  rw [h.1]
  decide

/-- Claim C7: when `descriptors_output.csv` is present but lacks the
"Name" column, the potency branch aborts with the failure the spec
taxonomy classifies as FeatureParseFailure (the `KeyError` of the
column drop), before `model.pkl` is loaded, with no model inference
and no result display. -/
theorem missing_name_column_aborts (env : Env) (s : String) (hs : s ≠ "")
    (tbl : Table) (hout : env.descriptorsOutput = some tbl)
    (hname : "Name" ∉ tbl.headers) :
    classifyPIC50Abort (main env s .predictPIC50) =
      some FailureKind.featureParseFailure ∧
    Event.modelInference ∉ (main env s .predictPIC50).events ∧
    Event.modelLoad "model.pkl" ∉ (main env s .predictPIC50).events ∧
    (main env s .predictPIC50).displays = [] := by
  refine ⟨?_, ?_, ?_, ?_⟩ <;>
    simp [main, if_neg hs, hout, hname, classifyPIC50Abort]

theorem missing_name_column_aborts_witness :
    classifyPIC50Abort (main envNoName "CCO" .predictPIC50) =
      some FailureKind.featureParseFailure ∧
    Event.modelInference ∉ (main envNoName "CCO" .predictPIC50).events ∧
    Event.modelLoad "model.pkl" ∉ (main envNoName "CCO" .predictPIC50).events ∧
    (main envNoName "CCO" .predictPIC50).displays = [] :=
  missing_name_column_aborts envNoName "CCO" (by decide) _ rfl (by decide)

/-- Claim C2 is refuted at a concrete input: with a parser that rejects
every string, running the pIC50 branch on the invalid (non-empty)
string "xx" never invokes the parser at all, yet executes the
subprocess, the model load and the model inference, and displays a
result — so an invalid molecular string neither fails with the
InvalidStructure kind nor prevents the model code path in that
branch. -/
theorem invalid_string_counterexample :
    Event.parseAttempt "xx" ∉ (main envInvalid "xx" .predictPIC50).events ∧
    Event.modelInference ∈ (main envInvalid "xx" .predictPIC50).events ∧
    Event.subprocessCall "./padel.sh" ∈ (main envInvalid "xx" .predictPIC50).events ∧
    (main envInvalid "xx" .predictPIC50).displays ≠ [] ∧
    (main envInvalid "xx" .predictPIC50).uncaught = none := by
  decide

/-- Claim C2 (amended): for invalid non-empty molecular strings, in the
two branches that invoke the parser — descriptor computation and
activity prediction — the run fails with the single InvalidStructure
kind (the caught `ValueError`, displayed as one error message), no
descriptor value is computed and no model inference executes; the
activity branch does, however, load its model artifact before parsing,
and the pIC50 and protein branches never invoke the parser at all. -/
theorem invalid_string_parse_branches (env : Env) (s : String) (hs : s ≠ "")
    (hp : env.molFromSmiles s = none) :
    ((main env s .computeLipinski).displays = [.errorMsg "Invalid SMILES string"] ∧
     (main env s .computeLipinski).uncaught = none ∧
     Event.descriptorComputed ∉ (main env s .computeLipinski).events ∧
     Event.modelInference ∉ (main env s .computeLipinski).events) ∧
    (∀ model, env.lipinskyModel = some model →
      (main env s .predictActivity).displays = [.errorMsg "Invalid SMILES string"] ∧
      (main env s .predictActivity).uncaught = none ∧
      Event.descriptorComputed ∉ (main env s .predictActivity).events ∧
      Event.modelInference ∉ (main env s .predictActivity).events ∧
      Event.modelLoad "lipinsky_model.pkl" ∈ (main env s .predictActivity).events) ∧
    (Event.parseAttempt s ∉ (main env s Task.predictPIC50).events ∧
      Event.parseAttempt s ∉ (main env s Task.retrieveProteins).events) := by
  have hlip : main env s .computeLipinski =
      { events := [.parseAttempt s],
        displays := [.errorMsg "Invalid SMILES string"], uncaught := none } := by
    simp [main, if_neg hs, hp]
  have hpic : Event.parseAttempt s ∉ (main env s Task.predictPIC50).events := by
    simp only [main, if_neg hs]
    rcases env.descriptorsOutput with _ | tbl
    · simp
    · by_cases hn : "Name" ∈ tbl.headers
      · simp only [hn, if_true]
        rcases env.pic50Model with _ | model
        · simp
        · rcases hpr : model (dropNameColumn tbl) with _ | ⟨r, rest⟩ <;> simp [hpr]
      · simp [hn]
  have hprot : Event.parseAttempt s ∉ (main env s Task.retrieveProteins).events := by
    simp [main, if_neg hs]
  refine ⟨?_, fun model hm => ?_, hpic, hprot⟩
  · rw [hlip]
    exact ⟨rfl, rfl, by simp, by simp⟩
  · have hact : main env s .predictActivity =
        { events := [.modelLoad "lipinsky_model.pkl", .parseAttempt s],
          displays := [.errorMsg "Invalid SMILES string"], uncaught := none } := by
      simp [main, if_neg hs, hm, hp]
    rw [hact]
    exact ⟨rfl, rfl, by simp, by simp, by simp⟩

theorem invalid_string_parse_branches_witness :
    (main envInvalid "xx" .computeLipinski).displays =
      [.errorMsg "Invalid SMILES string"] ∧
    Event.modelInference ∉ (main envInvalid "xx" .predictActivity).events ∧
    Event.modelLoad "lipinsky_model.pkl" ∈ (main envInvalid "xx" .predictActivity).events := by
  have h := invalid_string_parse_branches envInvalid "xx" (by decide) rfl
  have h2 := h.2.1 _ rfl
  exact ⟨h.1.1, h2.2.2.2.1, h2.2.2.2.2⟩

/-- Claim C3 is refuted at a concrete input: with the subprocess
exiting with status 1 but a readable (possibly stale) output file
present, the potency branch still loads the model, performs inference
and displays a result — no ExternalToolFailure is surfaced and
inference is not prevented. -/
theorem exit_code_ignored_counterexample :
    envToolFailed.padelExitCode ≠ 0 ∧
    Event.modelInference ∈ (main envToolFailed "CCO" .predictPIC50).events ∧
    (main envToolFailed "CCO" .predictPIC50).displays =
      [.text "The pIC50 of your compound is 6.12"] ∧
    (main envToolFailed "CCO" .predictPIC50).uncaught = none := by
  decide

/-- Claim C3 (amended): the potency branch never consults the
subprocess exit code — its behaviour is identical for every exit
status.  An external-tool failure surfaces only indirectly: when the
output file is absent the branch aborts with an uncaught file-read
error before any model load or inference; when a (possibly stale)
output file is present, inference proceeds regardless of the exit
code. -/
theorem exit_code_never_consulted (env : Env) (k : ℤ) (s : String) (t : Task)
    (hs : s ≠ "") (hout : env.descriptorsOutput = none) :
    main { env with padelExitCode := k } s t = main env s t ∧
    (main env s .predictPIC50).uncaught = some ExcKind.fileNotFoundError ∧
    (main env s .predictPIC50).displays = [] ∧
    Event.modelInference ∉ (main env s .predictPIC50).events ∧
    Event.modelLoad "model.pkl" ∉ (main env s .predictPIC50).events := by
  refine ⟨rfl, ?_, ?_, ?_, ?_⟩ <;> simp [main, if_neg hs, hout]

theorem exit_code_never_consulted_witness :
    main { envNoOutput with padelExitCode := 1 } "CCO" .predictPIC50 =
      main envNoOutput "CCO" .predictPIC50 ∧
    (main envNoOutput "CCO" .predictPIC50).uncaught = some ExcKind.fileNotFoundError ∧
    Event.modelInference ∉ (main envNoOutput "CCO" .predictPIC50).events := by
  have h := exit_code_never_consulted envNoOutput 1 "CCO" .predictPIC50 (by decide) rfl
  exact ⟨h.1, h.2.1, h.2.2.2.1⟩

/-- Claim C6 is refuted at a concrete input: when the potency branch
fails because the output file is absent, the failure is not caught at
the orchestrator boundary (the handler catches only ValueError) and no
user-visible message is produced. -/
theorem uncaught_failure_counterexample :
    (main envNoOutput "CCO" .predictPIC50).uncaught = some ExcKind.fileNotFoundError ∧
    (main envNoOutput "CCO" .predictPIC50).displays = [] := by
  decide

/-- Claim C6 (amended): only ValueError failures (the invalid-structure
parse error) are caught at the orchestrator boundary and converted to a
single user-visible message; every other failure escapes uncaught with
no message.  The no-partial-results half of the claim does hold: a run
that ends in an uncaught failure displays nothing at all, and a caught
parse failure displays exactly the one error message (never a stale or
default label). -/
theorem only_valueerror_caught_no_partial_results (env : Env) (s : String) (t : Task) :
    ((main env s t).uncaught ≠ none → (main env s t).displays = []) ∧
    (s ≠ "" → env.molFromSmiles s = none →
      (main env s .computeLipinski).displays = [.errorMsg "Invalid SMILES string"] ∧
      (main env s .computeLipinski).uncaught = none) := by
  constructor
  · intro h
    by_cases hs : s = ""
    · rw [hs] at h ⊢
      simp [main] at h
    · cases t
      · rcases hp : env.molFromSmiles s with _ | mol <;>
          simp [main, if_neg hs, hp] at h ⊢
      · rcases hm : env.lipinskyModel with _ | model
        · simp [main, if_neg hs, hm]
        · rcases hp : env.molFromSmiles s with _ | mol <;>
            simp [main, if_neg hs, hm, hp] at h ⊢
      · rcases hout : env.descriptorsOutput with _ | tbl
        · simp [main, if_neg hs, hout]
        · by_cases hn : "Name" ∈ tbl.headers
          · rcases hm : env.pic50Model with _ | model
            · simp [main, if_neg hs, hout, hn, hm]
            · rcases hpr : model (dropNameColumn tbl) with _ | ⟨r, rest⟩
              · simp [main, if_neg hs, hout, hn, hm, hpr]
              · simp [main, if_neg hs, hout, hn, hm, hpr] at h ⊢
          · simp [main, if_neg hs, hout, hn]
      · simp [main, if_neg hs] at h ⊢
  · intro hs hp
    constructor <;> simp [main, if_neg hs, hp]

theorem only_valueerror_caught_witness :
    (main envNoOutput "CCO" .predictPIC50).displays = [] ∧
    (main envInvalid "xy" .computeLipinski).displays =
      [.errorMsg "Invalid SMILES string"] :=
  ⟨(only_valueerror_caught_no_partial_results envNoOutput "CCO" .predictPIC50).1
      (by decide),
   ((only_valueerror_caught_no_partial_results envInvalid "xy" .computeLipinski).2
      (by decide) rfl).1⟩

/-- Characters that keep a field free of quoting and of extra
separators: none of the `csv` special characters (delimiter, quote
character, CR, LF) and no tab.  Every chemically valid SMILES string
satisfies this. -/
def cleanField (l : List Char) : Prop :=
  ∀ c ∈ l, c ≠ ',' ∧ c ≠ '"' ∧ c ≠ '\r' ∧ c ≠ '\n' ∧ c ≠ '\t'

instance cleanFieldDecidable (l : List Char) : Decidable (cleanField l) :=
  List.decidableBAll (fun c => c ≠ ',' ∧ c ≠ '"' ∧ c ≠ '\r' ∧ c ≠ '\n' ∧ c ≠ '\t') l

/-- Claim C8 is refuted at a concrete input: for the input string
"C,C" (a comma is not a SMILES character, but the branch never
validates), `csv.writer` quotes the combined field, so the written file
read as tab-separated data does not consist of the two fields
(molecular string, placeholder name) — the quote characters leak into
the fields. -/
theorem intermediate_file_counterexample :
    tsvRecords (generate_csv_file "C,C" "Compound_name") ≠
      [["C,C".data, "Compound_name".data]] := by
  decide

/-- Claim C8 (amended): for every molecular string free of the `csv`
special characters and of tabs (in particular every valid SMILES), the
intermediate file consists of exactly one CRLF-terminated row with no
header, and read as tab-separated data that row has exactly the two
fields (molecular string, compound-name placeholder); the file is
written, and the external tool invoked, as the first two actions of the
potency branch. -/
theorem intermediate_file_one_row (env : Env) (s1 : String)
    (h1 : cleanField s1.data) (hs : s1 ≠ "") :
    tsvRecords (generate_csv_file s1 "Compound_name") =
      [[s1.data, "Compound_name".data]] ∧
    (main env s1 .predictPIC50).events.take 2 =
      [.fileWrite "molecule.smi" (generate_csv_file s1 "Compound_name"),
       .subprocessCall "./padel.sh"] := by
  have hcn : cleanField ("Compound_name".data) := by decide
  have hnq : needsQuoting (s1.data ++ '\t' :: "Compound_name".data) = false := by
    simp only [needsQuoting, List.any_eq_false]
    intro c hc
    rcases List.mem_append.1 hc with h | h
    · obtain ⟨hA, hB, hC, hD, _⟩ := h1 c h
      simp [hA, hB, hC, hD]
    · rcases List.mem_cons.1 h with h | h
      · subst h
        decide
      · obtain ⟨hA, hB, hC, hD, _⟩ := hcn c h
        simp [hA, hB, hC, hD]
  have hgen : generate_csv_file s1 "Compound_name" =
      (s1.data ++ '\t' :: "Compound_name".data) ++ ['\r', '\n'] := by
    simp [generate_csv_file, writeCsvField, hnq]
  constructor
  · rw [hgen]
    have hassoc : (s1.data ++ '\t' :: "Compound_name".data) ++ ['\r', '\n'] =
        ((s1.data ++ '\t' :: "Compound_name".data) ++ ['\r']) ++ '\n' :: [] := by
      simp
    have hsplit : splitOnChar '\n'
        (((s1.data ++ '\t' :: "Compound_name".data) ++ ['\r']) ++ '\n' :: []) =
        ((s1.data ++ '\t' :: "Compound_name".data) ++ ['\r']) :: splitOnChar '\n' [] := by
      apply splitOnChar_append
      intro x hx
      rcases List.mem_append.1 hx with h | h
      · rcases List.mem_append.1 h with h | h
        · exact (h1 x h).2.2.2.1
        · rcases List.mem_cons.1 h with h | h
          · subst h
            decide
          · exact (hcn x h).2.2.2.1
      · rcases List.mem_singleton.1 h with h
        subst h
        decide
    have hstrip : stripTrailingCR ((s1.data ++ '\t' :: "Compound_name".data) ++ ['\r']) =
        s1.data ++ '\t' :: "Compound_name".data := by
      simp [stripTrailingCR, List.getLast?_concat, List.dropLast_concat]
    have htab1 : ∀ x ∈ s1.data, x ≠ '\t' := fun x hx => (h1 x hx).2.2.2.2
    have htab2 : ∀ x ∈ ("Compound_name".data), x ≠ '\t' :=
      fun x hx => (hcn x hx).2.2.2.2
    rw [hassoc]
    simp only [tsvRecords, hsplit, splitOnChar, List.dropLast, List.map, hstrip]
    rw [splitOnChar_append htab1, splitOnChar_of_not_mem htab2]
  · simp only [main, if_neg hs]
    rcases env.descriptorsOutput with _ | tbl
    · simp
    · by_cases hn : "Name" ∈ tbl.headers
      · simp only [hn, if_true]
        rcases env.pic50Model with _ | model
        · simp
        · rcases hpr : model (dropNameColumn tbl) with _ | ⟨r, rest⟩ <;> simp [hpr]
      · simp [hn]

theorem intermediate_file_one_row_witness :
    tsvRecords (generate_csv_file "CCO" "Compound_name") =
      [["CCO".data, "Compound_name".data]] ∧
    (main envBase "CCO" .predictPIC50).events.take 2 =
      [.fileWrite "molecule.smi" (generate_csv_file "CCO" "Compound_name"),
       .subprocessCall "./padel.sh"] :=
  intermediate_file_one_row envBase "CCO" (by decide) (by decide)

end Plasmodium
